import Mathlib

/-!
Verification of the architecture-conformance analyzer implemented by
`HexagonalExpertSystem` in `build_expert_system.py` (with the companion layer
classifier `detect_layer` from `create_enhanced_indexer.py`).

Strings are embedded as `List Char` so that every operation is structurally
recursive and kernel-computable; Python's float arithmetic on metric values is
embedded as exact rational arithmetic over `ℚ`.  The filesystem is embedded as
an association list from absolute path to file content; `os.path.exists` is
membership in the list of stored paths.
-/

/-- Embedded string type: Python `str` as a list of characters. -/
abbrev Str := List Char

/-- Python `pat in s` (substring containment). -/
def strContains : Str → Str → Bool
  | [], pat => pat.isEmpty
  | s@(_ :: t), pat => pat.isPrefixOf s || strContains t pat

/-- Worker for `splitOnCL`: structural recursion on a fuel bounded below by
the length of the string, so that the kernel can evaluate it. -/
def splitFuel (pat : Str) : Nat → Str → List Str
  | _, [] => [[]]
  | 0, s => [s]
  | fuel + 1, c :: t =>
    if pat ≠ [] ∧ pat.isPrefixOf (c :: t) then
      [] :: splitFuel pat fuel ((c :: t).drop pat.length)
    else
      match splitFuel pat fuel t with
      | [] => [[c]]
      | r :: rs => (c :: r) :: rs

/-- Python `s.split(pat)` for a nonempty separator `pat`: non-overlapping,
leftmost-first splitting.  (For `pat = []` it returns `[s]`; the analyzer only
ever splits on nonempty literals.) -/
def splitOnCL (pat s : Str) : List Str := splitFuel pat s.length s

/-- Python `s.count(pat)` for nonempty `pat` (non-overlapping occurrences). -/
def countOccur (s pat : Str) : Nat := (splitOnCL pat s).length - 1

/-- Python `s.lower()` (ASCII contents). -/
def toLowerCL (s : Str) : Str := s.map Char.toLower

/-- Python `s.strip()` (ASCII whitespace). -/
def trimCL (s : Str) : Str :=
  ((s.dropWhile Char.isWhitespace).reverse.dropWhile Char.isWhitespace).reverse

/-- Python `s.replace(pat, rep)` for nonempty `pat`. -/
def replaceCL (s pat rep : Str) : Str := List.intercalate rep (splitOnCL pat s)

/-- Python `s.startswith(pat)`. -/
def startsWithCL (s pat : Str) : Bool := pat.isPrefixOf s

/-- Python `s.endswith(pat)`. -/
def endsWithCL (s pat : Str) : Bool := pat.isSuffixOf s

/-- The forward-slash path separator. -/
def slashC : Char := Char.ofNat 47

/-- `os.path.dirname`: everything before the last separator (`""` when the
path has a single component). -/
def dirname (p : Str) : Str :=
  let parts := splitOnCL [slashC] p
  if parts.length ≤ 1 then [] else List.intercalate [slashC] parts.dropLast

/-- `os.path.basename`: the component after the last separator. -/
def basename (p : Str) : Str := (splitOnCL [slashC] p).getLastD []

/-- `os.path.join a b` for the shapes reachable here (`b` never absolute
except when explicitly so, `a` without trailing separator unless root). -/
def pathJoin (a b : Str) : Str :=
  if startsWithCL b [slashC] then b
  else if a = [] then b
  else if endsWithCL a [slashC] then a ++ b
  else a ++ [slashC] ++ b

/-- One step of `os.path.normpath`'s component normalization; `comps` holds
the already-normalized components in reverse order. -/
def normStep (isAbs : Bool) (comps : List Str) (seg : Str) : List Str :=
  if seg = [] ∨ seg = ['.'] then comps
  else if seg = ['.', '.'] then
    if isAbs then comps.tail
    else
      match comps with
      | [] => [['.', '.']]
      | a :: t => if a = ['.', '.'] then seg :: a :: t else t
  else seg :: comps

/-- `os.path.normpath` on POSIX paths (single leading slash). -/
def normpath (p : Str) : Str :=
  let isAbs := startsWithCL p [slashC]
  let comps := ((splitOnCL [slashC] p).foldl (normStep isAbs) []).reverse
  if isAbs then [slashC] ++ List.intercalate [slashC] comps
  else if comps = [] then ['.'] else List.intercalate [slashC] comps

/-- Length of the common prefix of two component lists. -/
def commonPrefixLen : List Str → List Str → Nat
  | a :: as', b :: bs => if a = b then commonPrefixLen as' bs + 1 else 0
  | _, _ => 0

/-- `os.path.relpath path start` for absolute, already-rooted inputs. -/
def relpath (path start : Str) : Str :=
  let ps := (splitOnCL [slashC] (normpath path)).filter (· ≠ [])
  let ss := (splitOnCL [slashC] (normpath start)).filter (· ≠ [])
  let c := commonPrefixLen ps ss
  let comps := List.replicate (ss.length - c) ['.', '.'] ++ ps.drop c
  if comps = [] then ['.'] else List.intercalate [slashC] comps

/-- Single-quote character. -/
def squoteC : Char := Char.ofNat 39

/-- Double-quote character. -/
def dquoteC : Char := Char.ofNat 34

/-- Closing-parenthesis character. -/
def rparenC : Char := Char.ofNat 41

/-- A character matching the regex class `['"]`. -/
def isQuoteC (c : Char) : Bool := c = squoteC || c = dquoteC

/-- Leftmost match of the regex `from\s+['"]([^'"]+)['"]` used by
`extract_imports` on `import ...` lines; returns the captured group. -/
def scanFrom : Str → Option Str
  | [] => none
  | c :: rest =>
    (if "from".data.isPrefixOf (c :: rest) then
      let after := (c :: rest).drop 4
      let ws := after.takeWhile Char.isWhitespace
      (match after.drop ws.length with
      | q :: rest2 =>
        if ws.length > 0 && isQuoteC q then
          let captured := rest2.takeWhile (fun ch => !isQuoteC ch)
          (if captured.length > 0 &&
              (match rest2.drop captured.length with
               | q2 :: _ => isQuoteC q2
               | [] => false) then
            some captured
          else scanFrom rest)
        else scanFrom rest
      | [] => scanFrom rest)
    else scanFrom rest)

/-- Leftmost match of the regex `require\(['"]([^'"]+)['"]\)` used by
`extract_imports` on lines containing `require(`; returns the captured group. -/
def scanRequire : Str → Option Str
  | [] => none
  | c :: rest =>
    (if "require(".data.isPrefixOf (c :: rest) then
      (match (c :: rest).drop 8 with
      | q :: rest2 =>
        if isQuoteC q then
          let captured := rest2.takeWhile (fun ch => !isQuoteC ch)
          (if captured.length > 0 &&
              (match rest2.drop captured.length with
               | q2 :: cp :: _ => isQuoteC q2 && cp = rparenC
               | _ => false) then
            some captured
          else scanRequire rest)
        else scanRequire rest
      | [] => scanRequire rest)
    else scanRequire rest)

/-- `HexagonalExpertSystem.extract_imports`: per stripped line, an ES6
`import ... from '...'` target or a CommonJS `require('...')` target. -/
def extract_imports (content : Str) : List Str :=
  (splitOnCL "\n".data content).filterMap (fun line =>
    let l := trimCL line
    if startsWithCL l "import ".data then scanFrom l
    else if strContains l "require(".data then scanRequire l
    else none)

/-- `HexagonalExpertSystem.classify_file`: tag stored as the networkx node
attribute `type` (never read back by any later phase of the analyzer).
A path containing `domain` (resp. `infrastructure`) but none of the listed
sublayer keywords falls through to the final `other`. -/
def classify_file (file_path : Str) : Str :=
  if strContains file_path "domain".data then
    (if strContains file_path "entities".data then "domain-entity".data
    else if strContains file_path "services".data then "domain-service".data
    else if strContains file_path "ports".data then "domain-port".data
    else "other".data)
  else if strContains file_path "infrastructure".data then
    (if strContains file_path "web".data then "infrastructure-web".data
    else if strContains file_path "database".data then "infrastructure-database".data
    else if strContains file_path "auth".data then "infrastructure-auth".data
    else "other".data)
  else if strContains file_path "test".data then "test".data
  else "other".data

/-- `detect_layer` from `create_enhanced_indexer.py`: layer tag from the
lower-cased path, checked in the fixed order domain, infrastructure,
application, test. -/
def detect_layer (file_path : Str) : Str :=
  let pl := toLowerCL file_path
  if strContains pl "domain".data then
    (if strContains pl "entities".data then "domain-entity".data
    else if strContains pl "services".data then "domain-service".data
    else if strContains pl "ports".data then "domain-port".data
    else "domain".data)
  else if strContains pl "infrastructure".data then
    (if strContains pl "web".data || strContains pl "controller".data then
      "infrastructure-web".data
    else if strContains pl "database".data || strContains pl "repository".data then
      "infrastructure-database".data
    else if strContains pl "auth".data then "infrastructure-auth".data
    else if strContains pl "email".data then "infrastructure-email".data
    else "infrastructure".data)
  else if strContains pl "application".data then "application".data
  else if strContains pl "test".data then "test".data
  else "other".data

/-- The five architectural layers of the data model. -/
inductive Layer where
  | Domain | Application | Infrastructure | Test | Other
deriving DecidableEq

/-- The layer family of a tag returned by `detect_layer` (sublayer tags such
as `domain-entity` belong to the `Domain` family). -/
def tagLayer (tag : Str) : Layer :=
  if startsWithCL tag "domain".data then .Domain
  else if startsWithCL tag "infrastructure".data then .Infrastructure
  else if tag = "application".data then .Application
  else if tag = "test".data then .Test
  else .Other

/-- The layer-assignment rule exactly as the specification words it:
`domain` maps to Domain, else `infrastructure` to Infrastructure, else
`application` to Application, else a segment containing `test` or `spec`
to Test, else Other.  (A second definition written from the spec, to be
compared with `detect_layer`, which is written from the code.) -/
def spec_layer_rule (file_path : Str) : Layer :=
  if strContains file_path "domain".data then .Domain
  else if strContains file_path "infrastructure".data then .Infrastructure
  else if strContains file_path "application".data then .Application
  else if strContains file_path "test".data || strContains file_path "spec".data then .Test
  else .Other

/-- The dependency graph: node ids are project-relative paths, edges are
resolved import dependencies.  networkx set semantics: `addNode`/`addEdge`
never create duplicates. -/
structure Graph where
  nodes : List Str
  edges : List (Str × Str)
deriving DecidableEq

/-- `nx.DiGraph.add_node`. -/
def Graph.addNode (g : Graph) (n : Str) : Graph :=
  if n ∈ g.nodes then g else { g with nodes := g.nodes ++ [n] }

/-- `nx.DiGraph.add_edge`: inserts both endpoints as nodes. -/
def Graph.addEdge (g : Graph) (u v : Str) : Graph :=
  let g1 := (g.addNode u).addNode v
  if (u, v) ∈ g1.edges then g1 else { g1 with edges := g1.edges ++ [(u, v)] }

/-- `nx.DiGraph.successors`. -/
def Graph.successors (g : Graph) (n : Str) : List Str :=
  (g.edges.filter (fun e => e.1 == n)).map Prod.snd

/-- `nx.DiGraph.in_degree`. -/
def Graph.in_degree (g : Graph) (n : Str) : Nat :=
  (g.edges.filter (fun e => e.2 == n)).length

/-- `nx.DiGraph.out_degree`. -/
def Graph.out_degree (g : Graph) (n : Str) : Nat :=
  (g.edges.filter (fun e => e.1 == n)).length

/-- The fixed candidate-suffix order of `resolve_import_path`. -/
def candExts : List Str :=
  [".js".data, ".ts".data, "/index.js".data, "/index.ts".data]

/-- The candidate loop of `resolve_import_path`: first existing candidate
wins.  `paths` is the set of paths that exist on disk. -/
def tryExts (paths : List Str) (resolved : Str) : List Str → Option Str
  | [] => none
  | ext :: rest =>
    if (resolved ++ ext) ∈ paths then some (resolved ++ ext)
    else tryExts paths resolved rest

/-- `HexagonalExpertSystem.resolve_import_path`. -/
def resolve_import_path (paths : List Str) (from_file imp : Str) : Option Str :=
  if !startsWithCL imp ".".data then none
  else tryExts paths (normpath (pathJoin (dirname from_file) imp)) candExts

/-- The import loop of `analyze_file_dependencies`: the edge produced by each
raw import target (relative targets only, and only when resolution
succeeds). -/
def import_edges (paths : List Str) (proj file_path : Str) (imps : List Str) :
    List (Str × Str) :=
  imps.filterMap (fun imp =>
    if startsWithCL imp ".".data then
      (resolve_import_path paths file_path imp).map
        (fun dep => (relpath file_path proj, relpath dep proj))
    else none)

/-- `HexagonalExpertSystem.analyze_file_dependencies`: on read failure the
exception is caught and the graph is left unchanged; otherwise the file's
node is added (its `type` attribute is `classify_file file_path`, which no
later phase reads) and one edge per resolved relative import. -/
def analyze_file_dependencies (fs : List (Str × Str)) (proj : Str) (g : Graph)
    (file_path : Str) : Graph :=
  match List.lookup file_path fs with
  | none => g
  | some content =>
    let rel := relpath file_path proj
    (import_edges (fs.map Prod.fst) proj file_path (extract_imports content)).foldl
      (fun acc e => acc.addEdge e.1 e.2) (g.addNode rel)

/-- The `os.walk` enumeration of `map_dependencies`: files under the project
root ending in `.js` whose directory is not under `node_modules` or
`.git`. -/
def walk_files (fs : List (Str × Str)) (proj : Str) : List Str :=
  (fs.map Prod.fst).filter (fun p =>
    startsWithCL p (proj ++ [slashC])
    && !(strContains (dirname p) "node_modules".data
         || strContains (dirname p) ".git".data)
    && endsWithCL p ".js".data)

/-- `HexagonalExpertSystem.map_dependencies`. -/
def map_dependencies (fs : List (Str × Str)) (proj : Str) : Graph :=
  (walk_files fs proj).foldl (analyze_file_dependencies fs proj) ⟨[], []⟩

/-- `HexagonalExpertSystem.extract_methods`: lines shaped like method
declarations, truncated to the first 10. -/
def extract_methods (content : Str) : List Str :=
  ((splitOnCL "\n".data content).filterMap (fun line =>
    let l := trimCL line
    if endsWithCL l "\x7b".data && strContains l "(".data && strContains l ")".data
        && !startsWithCL l "if".data && !startsWithCL l "for".data then
      let name := trimCL ((splitOnCL "(".data l).headD [])
      (if !name.isEmpty && !startsWithCL name "//".data then some name else none)
    else none)).take 10

/-- `HexagonalExpertSystem.extract_external_dependencies`.  The final
`list(set(external_deps))` enumerates a set in CPython's hash order, which
varies between processes under hash randomization; `σ` is that
process-dependent set-to-list conversion, an input of the run (constrained
by `SetOrderOK`), applied to the accumulated library list. -/
def extract_external_dependencies (σ : List Str → List Str) (content : Str) :
    List Str :=
  σ (((splitOnCL "\n".data content).filter (fun line =>
      strContains line "require(".data || strContains line "import ".data)).flatMap
    (fun line =>
      (["mongodb", "mongoose", "express", "nodemailer", "bcrypt", "jsonwebtoken"].map
        String.data).filter (fun lib => strContains line lib)))

/-- What any run of `list(set(...))` satisfies: it returns the distinct
elements of its input — a permutation of first-occurrence deduplication —
in some process-dependent order. -/
def SetOrderOK (σ : List Str → List Str) : Prop :=
  ∀ l : List Str, (σ l).Perm l.eraseDups

/-- A `detect_repository_pattern` match. -/
structure RepoMatch where
  file : Str
  methods : List Str
  score : Str
deriving DecidableEq

/-- `HexagonalExpertSystem.detect_repository_pattern`.  Unreadable files are
skipped (`except: continue`). -/
def detect_repository_pattern (fs : List (Str × Str)) (proj : Str) (g : Graph) :
    List RepoMatch :=
  g.nodes.filterMap (fun node =>
    if strContains (toLowerCL node) "repository".data then
      match List.lookup (pathJoin proj node) fs with
      | none => none
      | some content =>
        let has_crud := ["save", "find", "delete", "update"].any
          (fun m => strContains (toLowerCL content) m.data)
        let has_interface :=
          strContains content "class ".data || strContains content "function ".data
        if has_crud && has_interface then
          some ⟨node, extract_methods content,
                if has_crud && has_interface then "good".data else "partial".data⟩
        else none
    else none)

/-- A `detect_service_pattern` match. -/
structure ServiceMatch where
  file : Str
  methods : List Str
  has_business_logic : Bool
  dependencies : List Str
deriving DecidableEq

/-- `HexagonalExpertSystem.detect_service_pattern`. -/
def detect_service_pattern (fs : List (Str × Str)) (proj : Str) (g : Graph) :
    List ServiceMatch :=
  g.nodes.filterMap (fun node =>
    if strContains (toLowerCL node) "service".data && strContains node "domain".data then
      match List.lookup (pathJoin proj node) fs with
      | none => none
      | some content =>
        some ⟨node, extract_methods content,
              ["validate", "process", "calculate", "business", "rule"].any
                (fun k => strContains (toLowerCL content) k.data),
              g.successors node⟩
    else none)

/-- A `detect_dependency_injection` match. -/
structure DiMatch where
  file : Str
  di_type : Str
  score : Str
deriving DecidableEq

/-- `HexagonalExpertSystem.detect_dependency_injection`. -/
def detect_dependency_injection (fs : List (Str × Str)) (proj : Str) (g : Graph) :
    List DiMatch :=
  g.nodes.filterMap (fun node =>
    match List.lookup (pathJoin proj node) fs with
    | none => none
    | some content =>
      let constructor_injection :=
        strContains content "constructor(".data && strContains content "this.".data
      let method_injection := ["inject(", "dependency", "Container", "DI"].any
        (fun p => strContains content p.data)
      if constructor_injection || method_injection then
        some ⟨node, if constructor_injection then "constructor".data else "method".data,
              if constructor_injection then "good".data else "partial".data⟩
      else none)

/-- A `detect_adapter_pattern` match. -/
structure AdapterMatch where
  file : Str
  external_deps : List Str
  interface_methods : List Str
deriving DecidableEq

/-- `HexagonalExpertSystem.detect_adapter_pattern`; `σ` is the run's
set-to-list conversion used by `extract_external_dependencies`. -/
def detect_adapter_pattern (σ : List Str → List Str) (fs : List (Str × Str))
    (proj : Str) (g : Graph) : List AdapterMatch :=
  (g.nodes.filter (fun n => strContains n "infrastructure".data)).filterMap (fun node =>
    match List.lookup (pathJoin proj node) fs with
    | none => none
    | some content =>
      let implements_interface := ["implements", "extends", "class", "prototype"].any
        (fun k => strContains content k.data)
      let external_dependency :=
        ["mongodb", "mongoose", "express", "nodemailer", "bcrypt", "jwt"].any
          (fun lib => strContains content lib.data)
      if implements_interface && external_dependency then
        some ⟨node, extract_external_dependencies σ content, extract_methods content⟩
      else none)

/-- A `detect_factory_pattern` match. -/
structure FactoryMatch where
  file : Str
  factory_methods : List Str
deriving DecidableEq

/-- `HexagonalExpertSystem.detect_factory_pattern`. -/
def detect_factory_pattern (fs : List (Str × Str)) (proj : Str) (g : Graph) :
    List FactoryMatch :=
  g.nodes.filterMap (fun node =>
    match List.lookup (pathJoin proj node) fs with
    | none => none
    | some content =>
      let has_create_method := ["create", "build", "make", "factory"].any
        (fun m => strContains (toLowerCL content) m.data)
      let returns_instances :=
        strContains content "new ".data || strContains content "return ".data
      if has_create_method && returns_instances then
        some ⟨node, (extract_methods content).filter (fun m =>
          ["create", "build", "make"].any (fun k => strContains (toLowerCL m) k.data))⟩
      else none)

/-- The record built by `detect_patterns`. -/
structure Patterns where
  repository_pattern : List RepoMatch
  service_pattern : List ServiceMatch
  dependency_injection : List DiMatch
  adapter_pattern : List AdapterMatch
  factory_pattern : List FactoryMatch
deriving DecidableEq

/-- `HexagonalExpertSystem.detect_patterns`. -/
def detect_patterns (σ : List Str → List Str) (fs : List (Str × Str)) (proj : Str)
    (g : Graph) : Patterns :=
  { repository_pattern := detect_repository_pattern fs proj g
    service_pattern := detect_service_pattern fs proj g
    dependency_injection := detect_dependency_injection fs proj g
    adapter_pattern := detect_adapter_pattern σ fs proj g
    factory_pattern := detect_factory_pattern fs proj g }

/-- A single-responsibility violation: the fixed French message carries the
method count, modeled as the count itself. -/
structure SrpViolation where
  file : Str
  method_count : Nat
  severity : Str
deriving DecidableEq

/-- The per-node body of `check_single_responsibility`: a Medium violation
when the lower-cased path contains `service` and the extracted method count
exceeds 7 (a hard-coded literal). -/
def srp_check (fs : List (Str × Str)) (proj : Str) (node : Str) : Option SrpViolation :=
  if strContains (toLowerCL node) "service".data then
    match List.lookup (pathJoin proj node) fs with
    | none => none
    | some content =>
      let methods := extract_methods content
      if methods.length > 7 then some ⟨node, methods.length, "medium".data⟩ else none
  else none

/-- `HexagonalExpertSystem.check_single_responsibility`. -/
def check_single_responsibility (fs : List (Str × Str)) (proj : Str) (g : Graph) :
    List SrpViolation :=
  g.nodes.filterMap (srp_check fs proj)

/-- `HexagonalExpertSystem.get_layer_level`. -/
def get_layer_level (file_path : Str) : Nat :=
  if strContains file_path "domain".data then 1
  else if strContains file_path "application".data then 2
  else if strContains file_path "infrastructure".data then 3
  else 2

/-- A dependency-direction violation. -/
structure DirViolation where
  source : Str
  target : Str
  severity : Str
deriving DecidableEq

/-- `HexagonalExpertSystem.check_dependency_direction`: a High violation for
every edge whose source layer rank exceeds its target layer rank. -/
def check_dependency_direction (g : Graph) : List DirViolation :=
  g.edges.filterMap (fun e =>
    if get_layer_level e.1 > get_layer_level e.2 then
      some ⟨e.1, e.2, "high".data⟩
    else none)

/-- A layer-isolation violation. -/
structure IsoViolation where
  file : Str
  dependency : Str
  severity : Str
deriving DecidableEq

/-- `HexagonalExpertSystem.check_layer_isolation`: a Critical violation for
every successor containing `infrastructure` of every node containing
`domain`. -/
def check_layer_isolation (g : Graph) : List IsoViolation :=
  (g.nodes.filter (fun n => strContains n "domain".data)).flatMap (fun domain_node =>
    (g.successors domain_node).filterMap (fun dep =>
      if strContains dep "infrastructure".data then
        some ⟨domain_node, dep, "critical".data⟩
      else none))

/-- Per-production-file coverage data of `check_test_coverage`. -/
structure CoverageInfo where
  has_test : Bool
  test_files : List Str
deriving DecidableEq

/-- `HexagonalExpertSystem.check_test_coverage`. -/
def check_test_coverage (g : Graph) : List (Str × CoverageInfo) :=
  let prod_files := g.nodes.filter (fun n =>
    !strContains (toLowerCL n) "test".data && endsWithCL n ".js".data)
  let tfs := g.nodes.filter (fun n => strContains (toLowerCL n) "test".data)
  prod_files.map (fun pf =>
    let base_name := replaceCL (basename pf) ".js".data []
    (pf, ⟨tfs.any (fun t => strContains t base_name),
          tfs.filter (fun t => strContains t base_name)⟩))

/-- A naming-convention violation (the expected-suffix message is a constant
determined by the branch taken on the filename). -/
structure NamingViolation where
  file : Str
  severity : Str
deriving DecidableEq

/-- `HexagonalExpertSystem.check_naming_conventions`. -/
def check_naming_conventions (g : Graph) : List NamingViolation :=
  g.nodes.filterMap (fun node =>
    let filename := basename node
    if strContains (toLowerCL filename) "service".data then
      (if !endsWithCL filename "Service.js".data then some ⟨node, "low".data⟩ else none)
    else if strContains (toLowerCL filename) "repository".data then
      (if !endsWithCL filename "Repository.js".data then some ⟨node, "low".data⟩ else none)
    else none)

/-- The record built by `check_best_practices`. -/
structure BestPractices where
  single_responsibility : List SrpViolation
  dependency_direction : List DirViolation
  layer_isolation : List IsoViolation
  test_coverage : List (Str × CoverageInfo)
  naming_conventions : List NamingViolation
deriving DecidableEq

/-- `HexagonalExpertSystem.check_best_practices`. -/
def check_best_practices (fs : List (Str × Str)) (proj : Str) (g : Graph) :
    BestPractices :=
  { single_responsibility := check_single_responsibility fs proj g
    dependency_direction := check_dependency_direction g
    layer_isolation := check_layer_isolation g
    test_coverage := check_test_coverage g
    naming_conventions := check_naming_conventions g }

/-- A code smell; the detail count is the line count (`long_file`) or method
count (`too_many_methods`) carried by the message. -/
structure Smell where
  smell_type : Str
  severity : Str
  detail : Nat
deriving DecidableEq

/-- The per-file body of `detect_code_smells`. -/
def detect_file_smells (content : Str) : List Smell :=
  let lineCount := (splitOnCL "\n".data content).length
  (if lineCount > 200 then [⟨"long_file".data, "medium".data, lineCount⟩] else [])
    ++ (if (extract_methods content).length > 10 then
          [⟨"too_many_methods".data, "medium".data, (extract_methods content).length⟩]
        else [])

/-- The smells of one file in `self.violations`. -/
structure FileSmells where
  file : Str
  smells : List Smell
deriving DecidableEq

/-- `HexagonalExpertSystem.detect_code_smells` (its result is appended to
`self.violations`, which starts empty and is extended exactly once). -/
def detect_code_smells (fs : List (Str × Str)) (proj : Str) (g : Graph) :
    List FileSmells :=
  g.nodes.filterMap (fun n =>
    if !endsWithCL n ".js".data then none
    else
      match List.lookup (pathJoin proj n) fs with
      | none => none
      | some content =>
        let ss := detect_file_smells content
        if !ss.isEmpty then some ⟨n, ss⟩ else none)

/-- Per-node coupling scores. -/
structure Coupling where
  afferent : Nat
  efferent : Nat
  instability : ℚ
deriving DecidableEq

/-- The per-node body of `calculate_coupling`. -/
def couplingFor (g : Graph) (n : Str) : Coupling :=
  let indeg := g.in_degree n
  let outdeg := g.out_degree n
  ⟨indeg, outdeg,
   if indeg + outdeg > 0 then (outdeg : ℚ) / ((indeg : ℚ) + (outdeg : ℚ)) else 0⟩

/-- `HexagonalExpertSystem.calculate_coupling`. -/
def calculate_coupling (g : Graph) : List (Str × Coupling) :=
  g.nodes.map (fun n => (n, couplingFor g n))

/-- The per-file decision-point count of
`calculate_cyclomatic_complexity`: note every keyword is counted with a
trailing space and `&&`, `||`, `elif` are not in the list. -/
def file_complexity (content : Str) : Nat :=
  countOccur content "if ".data + countOccur content "else ".data +
    countOccur content "for ".data + countOccur content "while ".data +
    countOccur content "case ".data + countOccur content "catch ".data + 1

/-- The per-file complexities accumulated by
`calculate_cyclomatic_complexity`: non-test `.js` nodes whose content is
readable. -/
def complexity_values (fs : List (Str × Str)) (proj : Str) (g : Graph) : List Nat :=
  g.nodes.filterMap (fun n =>
    if !endsWithCL n ".js".data || strContains (toLowerCL n) "test".data then none
    else (List.lookup (pathJoin proj n) fs).map file_complexity)

/-- `HexagonalExpertSystem.calculate_cyclomatic_complexity`: the average
complexity (0 when no file was counted).  No maximum is computed anywhere. -/
def calculate_cyclomatic_complexity (fs : List (Str × Str)) (proj : Str) (g : Graph) :
    ℚ :=
  let cs := complexity_values fs proj g
  if cs.length > 0 then (cs.sum : ℚ) / (cs.length : ℚ) else 0

/-- The metrics record of `calculate_metrics`; the two ratio fields are
present only when `total_files > 0`. -/
structure Metrics where
  total_files : Nat
  test_files : Nat
  domain_files : Nat
  infrastructure_files : Nat
  cyclomatic_complexity : ℚ
  coupling_metrics : List (Str × Coupling)
  test_ratio : Option ℚ
  domain_ratio : Option ℚ
deriving DecidableEq

/-- `HexagonalExpertSystem.calculate_metrics`. -/
def calculate_metrics (fs : List (Str × Str)) (proj : Str) (g : Graph) : Metrics :=
  let js_files := g.nodes.filter (fun n => endsWithCL n ".js".data)
  let tf := js_files.filter (fun n => strContains (toLowerCL n) "test".data)
  let df := js_files.filter (fun n => strContains n "domain".data)
  let inf := js_files.filter (fun n => strContains n "infrastructure".data)
  { total_files := js_files.length
    test_files := tf.length
    domain_files := df.length
    infrastructure_files := inf.length
    cyclomatic_complexity := calculate_cyclomatic_complexity fs proj g
    coupling_metrics := calculate_coupling g
    test_ratio :=
      if js_files.length > 0 then some ((tf.length : ℚ) / (js_files.length : ℚ)) else none
    domain_ratio :=
      if js_files.length > 0 then some ((df.length : ℚ) / (js_files.length : ℚ)) else none }

/-- A recommendation; the formatted message carries the metric value, modeled
as the value itself. -/
structure Recommendation where
  rec_type : Str
  priority : Str
  value : ℚ
deriving DecidableEq

/-- `HexagonalExpertSystem.generate_recommendations` (`metrics.get(k, 0)`
becomes `Option.getD _ 0`; the Python literals `0.8` and `15` are exact). -/
def generate_recommendations (m : Metrics) : List Recommendation :=
  (if m.test_ratio.getD 0 < (8 : ℚ) / 10 then
    [⟨"testing".data, "high".data, m.test_ratio.getD 0⟩]
  else [])
    ++ (if m.cyclomatic_complexity > 15 then
          [⟨"complexity".data, "medium".data, m.cyclomatic_complexity⟩]
        else [])

/-- The analyzer state populated by `analyze_codebase`. -/
structure AnalysisState where
  graph : Graph
  code_patterns : Patterns
  best_practices : BestPractices
  violations : List FileSmells
  metrics : Metrics
deriving DecidableEq

/-- `HexagonalExpertSystem.analyze_codebase`: map dependencies, then run the
read-only detectors/checks/metrics over the resulting graph; `σ` is the
process's set-to-list conversion. -/
def analyze_codebase (fs : List (Str × Str)) (proj : Str)
    (σ : List Str → List Str) : AnalysisState :=
  let g := map_dependencies fs proj
  { graph := g
    code_patterns := detect_patterns σ fs proj g
    best_practices := check_best_practices fs proj g
    violations := detect_code_smells fs proj g
    metrics := calculate_metrics fs proj g }

/-- The report value assembled by `generate_report` (serialization to JSON is
the external side effect and is not part of the value). -/
structure Report where
  timestamp : Str
  project_path : Str
  metrics : Metrics
  patterns : Patterns
  best_practices : BestPractices
  violations : List FileSmells
  recommendations : List Recommendation
deriving DecidableEq

/-- `HexagonalExpertSystem.generate_report`: `timestamp` is
`datetime.now().isoformat()`, an input that varies between runs, made an
explicit parameter here. -/
def generate_report (st : AnalysisState) (proj now : Str) : Report :=
  { timestamp := now
    project_path := proj
    metrics := st.metrics
    patterns := st.code_patterns
    best_practices := st.best_practices
    violations := st.violations
    recommendations := generate_recommendations st.metrics }

/-- One full analysis run: `analyze_codebase` followed by `generate_report`.
Its run-varying inputs are the clock reading `now` and the process's
set-to-list conversion `σ`. -/
def run_analysis (fs : List (Str × Str)) (proj now : Str)
    (σ : List Str → List Str) : Report :=
  generate_report (analyze_codebase fs proj σ) proj now

/-- The per-node complexity formula exactly as the specification words it:
1 plus the count of occurrences of `if`, `elif`, `else`, `for`, `while`,
`case`, `catch`, `&&` and `||`.  (A second definition written from the
spec's words, to be compared with `file_complexity`, which is written from
the code.) -/
def spec_complexity_rule (content : Str) : Nat :=
  1 + countOccur content "if".data + countOccur content "elif".data +
    countOccur content "else".data + countOccur content "for".data +
    countOccur content "while".data + countOccur content "case".data +
    countOccur content "catch".data + countOccur content "&&".data +
    countOccur content "||".data

/-- Scenario fixture: a Domain file importing an Infrastructure file through
`require('../infrastructure/db')`. -/
def fsB : List (Str × Str) :=
  [("/p/domain/OrderService.js".data,
    "const db = require('../infrastructure/db')".data),
   ("/p/infrastructure/db.js".data, "".data)]

/-- Fixture: a service file declaring nine methods. -/
def content9 : Str :=
  ("m1() \x7b\n\x7d\nm2() \x7b\n\x7d\nm3() \x7b\n\x7d\nm4() \x7b\n\x7d\nm5() \x7b\n\x7d\n"
    ++ "m6() \x7b\n\x7d\nm7() \x7b\n\x7d\nm8() \x7b\n\x7d\nm9() \x7b\n\x7d\n").data

/-- Fixture filesystem holding the nine-method service file. -/
def fs8 : List (Str × Str) := [("/p/domain/UserService.js".data, content9)]

/-- Fixture: a file of 201 lines (200 newline characters). -/
def content201 : Str := List.replicate 200 (Char.ofNat 10)

/-- Fixture filesystem holding the 201-line file. -/
def fs10 : List (Str × Str) := [("/p/a.js".data, content201)]

/-- Fixture: a file whose single relative import resolves to nothing. -/
def fs6a : List (Str × Str) :=
  [("/p/domain/A.js".data, "const x = require('./missing')".data)]

/-- Fixture: the same file with the unresolvable import removed. -/
def fs6b : List (Str × Str) := [("/p/domain/A.js".data, "".data)]

/-- Fixture: a one-node graph with no edges. -/
def gIso : Graph := ⟨["c".data], []⟩

/-- Fixture: a two-node graph with one Domain-to-Infrastructure edge. -/
def gDom : Graph :=
  ⟨["domain/a.js".data, "infrastructure/b.js".data],
   [("domain/a.js".data, "infrastructure/b.js".data)]⟩

/-- Fixture: a directory holding both `x.js` and `x.ts`. -/
def pathsTie : List Str := ["/p/a/x.js".data, "/p/a/x.ts".data]

/-- A concrete `SetOrderOK` conversion: first-occurrence order. -/
def idSetOrder : List Str → List Str := fun l => l.eraseDups

/-- A concrete `SetOrderOK` conversion: reversed first-occurrence order
(another admissible hash order of the same set). -/
def revSetOrder : List Str → List Str := fun l => l.eraseDups.reverse

/-- Fixture: an Infrastructure adapter file referencing two recognized
external libraries, so that its `external_deps` list has two elements whose
order depends on the run's set order. -/
def fsA : List (Str × Str) :=
  [("/p/infrastructure/Db.js".data,
    "class Db \x7b\nconst m = require('mongoose')\nconst e = require('express')\n".data)]

/-- The single-responsibility rule exactly as the specification words it,
with a configurable method-count threshold (default 7).  (A second
definition written from the spec's words, to be compared with
`check_single_responsibility`, whose threshold is the hard-coded literal
7 and which takes no configuration.) -/
def spec_srp_rule (threshold : Nat) (fs : List (Str × Str)) (proj : Str)
    (g : Graph) : List SrpViolation :=
  g.nodes.filterMap (fun node =>
    if strContains (toLowerCL node) "service".data then
      match List.lookup (pathJoin proj node) fs with
      | none => none
      | some content =>
        let methods := extract_methods content
        if methods.length > threshold then
          some ⟨node, methods.length, "medium".data⟩
        else none
    else none)

/-- Edge sources of analyzer-built graphs are nodes (networkx `add_edge`
inserts both endpoints). -/
def Graph.SrcWF (g : Graph) : Prop := ∀ e ∈ g.edges, e.1 ∈ g.nodes

/-- `addNode` puts its argument among the nodes. -/
theorem Graph.nodes_addNode_mem (g : Graph) (n : Str) : n ∈ (g.addNode n).nodes := by
  unfold Graph.addNode
  split
  · assumption
  · simp

/-- `addNode` keeps existing nodes. -/
theorem Graph.nodes_addNode_mono {g : Graph} {m : Str} (n : Str) (h : m ∈ g.nodes) :
    m ∈ (g.addNode n).nodes := by
  unfold Graph.addNode
  split
  · exact h
  · simp [h]

/-- `addNode` leaves the edges unchanged. -/
theorem Graph.edges_addNode (g : Graph) (n : Str) : (g.addNode n).edges = g.edges := by
  unfold Graph.addNode
  split <;> rfl

/-- The nodes after `addEdge` are those after inserting both endpoints. -/
theorem Graph.nodes_addEdge (g : Graph) (u v : Str) :
    (g.addEdge u v).nodes = ((g.addNode u).addNode v).nodes := by
  simp only [Graph.addEdge]
  split <;> rfl

/-- Any edge after `addEdge` is an old edge or the new pair. -/
theorem Graph.edges_addEdge_sub {g : Graph} {u v : Str} {e : Str × Str}
    (h : e ∈ (g.addEdge u v).edges) : e ∈ g.edges ∨ e = (u, v) := by
  simp only [Graph.addEdge] at h
  split at h
  · rw [Graph.edges_addNode, Graph.edges_addNode] at h
    exact Or.inl h
  · simp only [Graph.edges_addNode] at h
    rcases List.mem_append.mp h with h | h
    · exact Or.inl h
    · exact Or.inr (List.mem_singleton.mp h)

/-- `addNode` preserves source well-formedness. -/
theorem Graph.srcWF_addNode {g : Graph} (hg : g.SrcWF) (n : Str) :
    (g.addNode n).SrcWF := by
  intro e he
  rw [Graph.edges_addNode] at he
  exact Graph.nodes_addNode_mono n (hg e he)

/-- `addEdge` preserves source well-formedness. -/
theorem Graph.srcWF_addEdge {g : Graph} (hg : g.SrcWF) (u v : Str) :
    (g.addEdge u v).SrcWF := by
  intro e he
  rw [Graph.nodes_addEdge]
  rcases Graph.edges_addEdge_sub he with h | h
  · exact Graph.nodes_addNode_mono v (Graph.nodes_addNode_mono u (hg e h))
  · subst h
    exact Graph.nodes_addNode_mono v (Graph.nodes_addNode_mem g u)

/-- Folding `addEdge` over an edge list preserves source well-formedness. -/
theorem Graph.srcWF_foldl_addEdge :
    ∀ (es : List (Str × Str)) {g : Graph}, g.SrcWF →
      (es.foldl (fun acc e => acc.addEdge e.1 e.2) g).SrcWF := by
  intro es
  induction es with
  | nil => intro g hg; exact hg
  | cons e rest ih => intro g hg; exact ih (Graph.srcWF_addEdge hg e.1 e.2)

/-- `analyze_file_dependencies` preserves source well-formedness. -/
theorem srcWF_analyze_file {fs : List (Str × Str)} {proj : Str} {g : Graph}
    (hg : g.SrcWF) (fp : Str) : (analyze_file_dependencies fs proj g fp).SrcWF := by
  unfold analyze_file_dependencies
  rcases List.lookup fp fs with _ | content
  · exact hg
  · exact Graph.srcWF_foldl_addEdge _ (Graph.srcWF_addNode hg _)

/-- Every graph built by `map_dependencies` is source well-formed. -/
theorem srcWF_map_dependencies (fs : List (Str × Str)) (proj : Str) :
    (map_dependencies fs proj).SrcWF := by
  unfold map_dependencies
  have hstep : ∀ (l : List Str) (g : Graph), g.SrcWF →
      (l.foldl (analyze_file_dependencies fs proj) g).SrcWF := by
    intro l
    induction l with
    | nil => intro g hg; exact hg
    | cons x xs ih => intro g hg; exact ih _ (srcWF_analyze_file hg x)
  refine hstep _ ⟨[], []⟩ ?_
  intro e he
  exact absurd he (List.not_mem_nil e)

/-- A Domain-source, Infrastructure-target edge of a well-formed graph is
flagged Critical by `check_layer_isolation`. -/
theorem mem_check_layer_isolation {g : Graph} {u v : Str}
    (hu : u ∈ g.nodes) (he : (u, v) ∈ g.edges)
    (hdom : strContains u "domain".data = true)
    (hinf : strContains v "infrastructure".data = true) :
    (⟨u, v, "critical".data⟩ : IsoViolation) ∈ check_layer_isolation g := by
  unfold check_layer_isolation
  rw [List.mem_flatMap]
  refine ⟨u, List.mem_filter.mpr ⟨hu, hdom⟩, ?_⟩
  rw [List.mem_filterMap]
  refine ⟨v, ?_, by simp [hinf]⟩
  unfold Graph.successors
  exact List.mem_map.mpr ⟨(u, v), List.mem_filter.mpr ⟨he, by simp⟩, rfl⟩

/-- `filterMap` congruence up to a relation on the produced values. -/
theorem forall₂_filterMap {α β : Type} (f g : α → Option β) (R : β → β → Prop) :
    ∀ l : List α,
      (∀ x ∈ l, (f x = none ∧ g x = none) ∨
        ∃ a b, f x = some a ∧ g x = some b ∧ R a b) →
      List.Forall₂ R (l.filterMap f) (l.filterMap g) := by
  intro l
  induction l with
  | nil => intro _; exact List.Forall₂.nil
  | cons x xs ih =>
    intro h
    rw [List.filterMap_cons, List.filterMap_cons]
    rcases h x (List.mem_cons_self x xs) with ⟨hf, hg⟩ | ⟨a, b, hf, hg, hR⟩
    · rw [hf, hg]
      exact ih (fun y hy => h y (List.mem_cons_of_mem x hy))
    · rw [hf, hg]
      exact List.Forall₂.cons hR (ih (fun y hy => h y (List.mem_cons_of_mem x hy)))

/-- Two set orders give adapter-match lists that agree on file and methods
and differ only by a permutation of each match's external-dependency list. -/
theorem adapter_pattern_perm {σ1 σ2 : List Str → List Str}
    (h1 : SetOrderOK σ1) (h2 : SetOrderOK σ2) (fs : List (Str × Str)) (proj : Str)
    (g : Graph) :
    List.Forall₂ (fun a b : AdapterMatch =>
        a.file = b.file ∧ a.interface_methods = b.interface_methods ∧
        a.external_deps.Perm b.external_deps)
      (detect_adapter_pattern σ1 fs proj g)
      (detect_adapter_pattern σ2 fs proj g) := by
  unfold detect_adapter_pattern
  apply forall₂_filterMap
  intro node _
  rcases hl : List.lookup (pathJoin proj node) fs with _ | content
  · exact Or.inl ⟨by simp [hl], by simp [hl]⟩
  · by_cases hc : (["implements", "extends", "class", "prototype"].any
          (fun k => strContains content k.data)
        && ["mongodb", "mongoose", "express", "nodemailer", "bcrypt", "jwt"].any
          (fun lib => strContains content lib.data)) = true
    · refine Or.inr
        ⟨⟨node, extract_external_dependencies σ1 content, extract_methods content⟩,
         ⟨node, extract_external_dependencies σ2 content, extract_methods content⟩,
         by simp only [hl]; rw [if_pos hc],
         by simp only [hl]; rw [if_pos hc], rfl, rfl, ?_⟩
      exact (h1 _).trans (h2 _).symm
    · exact Or.inl ⟨by simp only [hl]; rw [if_neg hc],
        by simp only [hl]; rw [if_neg hc]⟩

/-- Claim C1 (amended): two runs over the same files and root agree on every
Report field except the timestamp (exactly the clock reading of the run) and
the order of each adapter match's external-dependency list (Python's
`list(set(...))` iteration order, which varies per process under hash
randomization): corresponding adapter matches name the same file and methods
with `external_deps` permutations of one another.  Reports serialize
byte-identically only at equal clock reading and equal set order. -/
theorem report_deterministic_modulo_timestamp (fs : List (Str × Str))
    (proj t1 t2 : Str) (σ1 σ2 : List Str → List Str)
    (h1 : SetOrderOK σ1) (h2 : SetOrderOK σ2) :
    (run_analysis fs proj t1 σ1).project_path =
      (run_analysis fs proj t2 σ2).project_path ∧
    (run_analysis fs proj t1 σ1).metrics = (run_analysis fs proj t2 σ2).metrics ∧
    (run_analysis fs proj t1 σ1).best_practices =
      (run_analysis fs proj t2 σ2).best_practices ∧
    (run_analysis fs proj t1 σ1).violations =
      (run_analysis fs proj t2 σ2).violations ∧
    (run_analysis fs proj t1 σ1).recommendations =
      (run_analysis fs proj t2 σ2).recommendations ∧
    (run_analysis fs proj t1 σ1).patterns.repository_pattern =
      (run_analysis fs proj t2 σ2).patterns.repository_pattern ∧
    (run_analysis fs proj t1 σ1).patterns.service_pattern =
      (run_analysis fs proj t2 σ2).patterns.service_pattern ∧
    (run_analysis fs proj t1 σ1).patterns.dependency_injection =
      (run_analysis fs proj t2 σ2).patterns.dependency_injection ∧
    (run_analysis fs proj t1 σ1).patterns.factory_pattern =
      (run_analysis fs proj t2 σ2).patterns.factory_pattern ∧
    List.Forall₂ (fun a b : AdapterMatch =>
        a.file = b.file ∧ a.interface_methods = b.interface_methods ∧
        a.external_deps.Perm b.external_deps)
      (run_analysis fs proj t1 σ1).patterns.adapter_pattern
      (run_analysis fs proj t2 σ2).patterns.adapter_pattern ∧
    (run_analysis fs proj t1 σ1).timestamp = t1 := by
  refine ⟨rfl, rfl, rfl, rfl, rfl, rfl, rfl, rfl, rfl, ?_, rfl⟩
  show List.Forall₂ _
    (detect_adapter_pattern σ1 fs proj (map_dependencies fs proj))
    (detect_adapter_pattern σ2 fs proj (map_dependencies fs proj))
  exact adapter_pattern_perm h1 h2 fs proj (map_dependencies fs proj)

/-- Claim C1 witness: on the adapter fixture, at two different admissible set
orders, the single adapter match keeps its file and methods while its
two-element external-dependency list is permuted. -/
theorem report_deterministic_modulo_timestamp_witness :
    SetOrderOK idSetOrder ∧ SetOrderOK revSetOrder ∧
    List.Forall₂ (fun a b : AdapterMatch =>
        a.file = b.file ∧ a.interface_methods = b.interface_methods ∧
        a.external_deps.Perm b.external_deps)
      (run_analysis fsA "/p".data "t1".data idSetOrder).patterns.adapter_pattern
      (run_analysis fsA "/p".data "t2".data revSetOrder).patterns.adapter_pattern :=
  ⟨fun l => List.Perm.refl (idSetOrder l), fun l => List.reverse_perm l.eraseDups,
   (report_deterministic_modulo_timestamp fsA "/p".data "t1".data "t2".data
      idSetOrder revSetOrder (fun l => List.Perm.refl (idSetOrder l))
      (fun l => List.reverse_perm l.eraseDups)).2.2.2.2.2.2.2.2.2.1⟩

set_option maxRecDepth 100000 in
/-- Claim C1 counterexample: the Report embeds `datetime.now().isoformat()`
and the per-process set order of each adapter match's external dependencies,
so two independent runs over unchanged files differ whenever the clock
readings differ, and also — even at equal clock readings — whenever the two
processes enumerate the library set in different orders. -/
theorem report_runs_differ_in_timestamp :
    run_analysis [] "p".data "t1".data idSetOrder ≠
      run_analysis [] "p".data "t2".data idSetOrder ∧
    run_analysis fsA "/p".data "t".data idSetOrder ≠
      run_analysis fsA "/p".data "t".data revSetOrder := by
  constructor
  · intro h
    have h2 : ("t1".data : Str) = "t2".data := congrArg Report.timestamp h
    exact absurd h2 (by decide)
  · intro h
    have h2 : (run_analysis fsA "/p".data "t".data idSetOrder).patterns.adapter_pattern
        = (run_analysis fsA "/p".data "t".data revSetOrder).patterns.adapter_pattern :=
      congrArg (fun r : Report => r.patterns.adapter_pattern) h
    exact absurd h2 (by decide)

/-- Claim C2: for every graph produced by the analysis, an edge whose source
path contains `domain` and whose target path contains `infrastructure` (the
layer assignments Domain and Infrastructure) yields a Critical
layer-isolation violation naming exactly that pair in the generated Report,
with no reference to the rank comparison of the dependency-direction rule. -/
theorem layer_isolation_sound (fs : List (Str × Str)) (proj now u v : Str)
    (σ : List Str → List Str)
    (he : (u, v) ∈ (map_dependencies fs proj).edges)
    (hdom : strContains u "domain".data = true)
    (hinf : strContains v "infrastructure".data = true) :
    (⟨u, v, "critical".data⟩ : IsoViolation) ∈
      (run_analysis fs proj now σ).best_practices.layer_isolation := by
  have hu : u ∈ (map_dependencies fs proj).nodes :=
    srcWF_map_dependencies fs proj (u, v) he
  show (⟨u, v, "critical".data⟩ : IsoViolation) ∈
    check_layer_isolation (map_dependencies fs proj)
  exact mem_check_layer_isolation hu he hdom hinf

/-- Claim C2 witness: the Scenario-B fixture (a Domain service requiring
`../infrastructure/db`) produces the Critical violation in its Report. -/
theorem layer_isolation_sound_witness :
    (⟨"domain/OrderService.js".data, "infrastructure/db.js".data,
      "critical".data⟩ : IsoViolation) ∈
      (run_analysis fsB "/p".data "t".data idSetOrder).best_practices.layer_isolation :=
  layer_isolation_sound fsB "/p".data "t".data _ _ idSetOrder (by decide) (by decide)
    (by decide)

/-- Every layer rank is at least 1. -/
theorem one_le_get_layer_level (p : Str) : 1 ≤ get_layer_level p := by
  unfold get_layer_level
  split_ifs <;> omega

/-- Claim C3: `check_dependency_direction` emits a High violation for an
edge exactly when the source's layer rank (domain 1, application 2,
infrastructure 3, default 2) exceeds the target's; in particular no edge
whose source path contains `domain` is ever flagged by this rule. -/
theorem dependency_direction_rank_rule (g : Graph) (u v : Str) :
    ((⟨u, v, "high".data⟩ : DirViolation) ∈ check_dependency_direction g ↔
      (u, v) ∈ g.edges ∧ get_layer_level u > get_layer_level v) ∧
    (strContains u "domain".data = true → strContains v "infrastructure".data = true →
      (⟨u, v, "high".data⟩ : DirViolation) ∉ check_dependency_direction g) := by
  have hiff : (⟨u, v, "high".data⟩ : DirViolation) ∈ check_dependency_direction g ↔
      (u, v) ∈ g.edges ∧ get_layer_level u > get_layer_level v := by
    unfold check_dependency_direction
    rw [List.mem_filterMap]
    constructor
    · rintro ⟨⟨e1, e2⟩, he, hf⟩
      simp only at hf
      split at hf
      · rename_i hc
        simp only [Option.some.injEq, DirViolation.mk.injEq] at hf
        obtain ⟨h1, h2, -⟩ := hf
        subst h1
        subst h2
        exact ⟨he, hc⟩
      · exact absurd hf (by simp)
    · rintro ⟨he, hc⟩
      exact ⟨(u, v), he, by simp [hc]⟩
  refine ⟨hiff, ?_⟩
  intro hdom _ hmem
  obtain ⟨-, hc⟩ := hiff.mp hmem
  have h1 : get_layer_level u = 1 := by simp [get_layer_level, hdom]
  have h2 := one_le_get_layer_level v
  omega

/-- Claim C3 witness: a concrete Domain-to-Infrastructure edge (rank 1 to
rank 3) is not flagged by the dependency-direction rule. -/
theorem dependency_direction_rank_rule_witness :
    strContains "domain/a.js".data "domain".data = true ∧
    strContains "infrastructure/b.js".data "infrastructure".data = true ∧
    (⟨"domain/a.js".data, "infrastructure/b.js".data, "high".data⟩ : DirViolation) ∉
      check_dependency_direction gDom :=
  ⟨by decide, by decide,
   (dependency_direction_rank_rule gDom "domain/a.js".data
      "infrastructure/b.js".data).2 (by decide) (by decide)⟩

/-- Claim C4 (amended): `detect_layer` is total into the five layer families
and follows the fixed priority order `domain`, `infrastructure`,
`application`, `test` on the lower-cased path; no `spec` rule exists. -/
theorem detect_layer_priority_totality (p : Str) :
    tagLayer (detect_layer p) =
      (if strContains (toLowerCL p) "domain".data then Layer.Domain
       else if strContains (toLowerCL p) "infrastructure".data then Layer.Infrastructure
       else if strContains (toLowerCL p) "application".data then Layer.Application
       else if strContains (toLowerCL p) "test".data then Layer.Test
       else Layer.Other) := by
  simp only [detect_layer]
  split_ifs <;> decide

/-- Claim C4 counterexample: the spec maps a path with a `spec` segment to
Test, but the classifier returns `other` for it. -/
theorem layer_classifier_spec_divergence :
    spec_layer_rule "spec/user.js".data = Layer.Test ∧
    detect_layer "spec/user.js".data = "other".data ∧
    tagLayer (detect_layer "spec/user.js".data) = Layer.Other :=
  ⟨by decide, by decide, by decide⟩

/-- The candidate loop returns the first existing candidate, in list order. -/
theorem tryExts_eq_find (paths : List Str) (r : Str) (exts : List Str) :
    tryExts paths r exts =
      (exts.map (fun ext => r ++ ext)).find? (fun c => c ∈ paths) := by
  induction exts with
  | nil => rfl
  | cons e rest ih =>
    simp only [tryExts, List.map_cons]
    by_cases h : (r ++ e) ∈ paths
    · rw [if_pos h, List.find?_cons_of_pos _ (by simpa using h)]
    · rw [if_neg h, List.find?_cons_of_neg _ (by simpa using h), ih]

/-- Claim C5: a relative import is resolved to the first existing candidate
among `resolved + .js`, `+ .ts`, `+ /index.js`, `+ /index.ts` (first match
wins even when several exist), and a non-relative import resolves to nothing
and contributes no edge wherever it sits in the import list. -/
theorem resolve_first_match_and_external_skipped (paths : List Str)
    (from_file imp : Str) :
    (startsWithCL imp ".".data = true →
      resolve_import_path paths from_file imp =
        (candExts.map
            (fun ext => normpath (pathJoin (dirname from_file) imp) ++ ext)).find?
          (fun c => c ∈ paths)) ∧
    (startsWithCL imp ".".data = false →
      resolve_import_path paths from_file imp = none ∧
      ∀ (proj file_path : Str) (pre post : List Str),
        import_edges paths proj file_path (pre ++ imp :: post) =
          import_edges paths proj file_path (pre ++ post)) := by
  constructor
  · intro h
    unfold resolve_import_path
    rw [h]
    simpa using tryExts_eq_find paths (normpath (pathJoin (dirname from_file) imp))
      candExts
  · intro h
    refine ⟨by simp [resolve_import_path, h], ?_⟩
    intro proj file_path pre post
    simp [import_edges, List.filterMap_append, List.filterMap_cons, h]

/-- Claim C5 witness: with both `x.js` and `x.ts` present, `./x` resolves to
`x.js`, the first candidate in the fixed order. -/
theorem resolve_first_match_witness :
    "/p/a/x.ts".data ∈ pathsTie ∧
    resolve_import_path pathsTie "/p/a/main.js".data "./x".data =
      some "/p/a/x.js".data := by
  refine ⟨by decide, ?_⟩
  rw [(resolve_first_match_and_external_skipped pathsTie "/p/a/main.js".data
        "./x".data).1 (by decide)]
  decide

set_option maxRecDepth 100000 in
/-- Claim C6 counterexample: a relative import of a missing file is
extracted, fails to resolve, and leaves the entire analysis output equal to
that of the same tree without the import: no `UnresolvedImport` fact (nor any
other trace) is recorded anywhere in the Report. -/
theorem unresolved_import_not_recorded :
    extract_imports "const x = require('./missing')".data = ["./missing".data] ∧
    resolve_import_path (fs6a.map Prod.fst) "/p/domain/A.js".data "./missing".data =
      none ∧
    run_analysis fs6a "/p".data "t".data idSetOrder =
      run_analysis fs6b "/p".data "t".data idSetOrder :=
  ⟨by decide, by decide, rfl⟩

/-- Claim C6 (amended): an unresolvable relative import produces no edge and
is silently dropped — removing it from the import list leaves the edge list
unchanged — and the build continues (the function is total). -/
theorem unresolved_relative_import_skipped (paths : List Str)
    (proj file_path imp : Str) (pre post : List Str)
    (hrel : startsWithCL imp ".".data = true)
    (hnone : resolve_import_path paths file_path imp = none) :
    import_edges paths proj file_path (pre ++ imp :: post) =
      import_edges paths proj file_path (pre ++ post) := by
  simp [import_edges, List.filterMap_append, List.filterMap_cons, hrel, hnone]

/-- Claim C6 witness: the concrete unresolvable `./missing` import adds no
edge. -/
theorem unresolved_relative_import_skipped_witness :
    startsWithCL "./missing".data ".".data = true ∧
    resolve_import_path (fs6a.map Prod.fst) "/p/domain/A.js".data "./missing".data =
      none ∧
    import_edges (fs6a.map Prod.fst) "/p".data "/p/domain/A.js".data
        ["./missing".data] =
      import_edges (fs6a.map Prod.fst) "/p".data "/p/domain/A.js".data [] :=
  ⟨by decide, by decide,
   unresolved_relative_import_skipped (fs6a.map Prod.fst) "/p".data
     "/p/domain/A.js".data "./missing".data [] [] (by decide) (by decide)⟩

/-- Claim C7: per node, afferent coupling is the in-degree, efferent coupling
the out-degree, instability is efferent over total (0 at total 0), the
coupling identity holds, instability lies in [0,1], and every graph node gets
exactly this record in `calculate_coupling`. -/
theorem coupling_metrics_spec (g : Graph) (n : Str) :
    (couplingFor g n).afferent = g.in_degree n ∧
    (couplingFor g n).efferent = g.out_degree n ∧
    (couplingFor g n).afferent + (couplingFor g n).efferent =
      g.in_degree n + g.out_degree n ∧
    (g.in_degree n + g.out_degree n = 0 → (couplingFor g n).instability = 0) ∧
    0 ≤ (couplingFor g n).instability ∧
    (couplingFor g n).instability ≤ 1 ∧
    (n ∈ g.nodes → (n, couplingFor g n) ∈ calculate_coupling g) := by
  have hinst : (couplingFor g n).instability =
      if g.in_degree n + g.out_degree n > 0 then
        ((g.out_degree n : ℚ)) / ((g.in_degree n : ℚ) + (g.out_degree n : ℚ))
      else 0 := rfl
  refine ⟨rfl, rfl, rfl, ?_, ?_, ?_, ?_⟩
  · intro h
    rw [hinst, if_neg (by omega)]
  · rw [hinst]
    split_ifs with h
    · positivity
    · exact le_refl 0
  · rw [hinst]
    split_ifs with h
    · have hpos : (0 : ℚ) < (g.in_degree n : ℚ) + (g.out_degree n : ℚ) := by
        exact_mod_cast h
      rw [div_le_one hpos]
      exact_mod_cast Nat.le_add_left _ _
    · exact zero_le_one
  · intro h
    unfold calculate_coupling
    exact List.mem_map.mpr ⟨n, h, rfl⟩

/-- Claim C7 witness: the isolated node of `gIso` has instability 0 and its
record appears in the coupling map. -/
theorem coupling_metrics_spec_witness :
    gIso.in_degree "c".data + gIso.out_degree "c".data = 0 ∧
    (couplingFor gIso "c".data).instability = 0 ∧
    ("c".data, couplingFor gIso "c".data) ∈ calculate_coupling gIso :=
  ⟨by decide,
   (coupling_metrics_spec gIso "c".data).2.2.2.1 (by decide),
   (coupling_metrics_spec gIso "c".data).2.2.2.2.2.2 (by decide)⟩

/-- An SRP violation produced for a node names that node. -/
theorem srp_check_file {fs : List (Str × Str)} {proj x : Str} {v : SrpViolation}
    (h : srp_check fs proj x = some v) : v.file = x := by
  unfold srp_check at h
  split at h
  · split at h
    · exact absurd h (by simp)
    · dsimp only at h
      split at h
      · injection h with h
        rw [← h]
      · exact absurd h (by simp)
  · exact absurd h (by simp)

/-- `countP` over a `filterMap` of a duplicate-free list is 1 when exactly
one element produces a value satisfying the predicate. -/
theorem countP_filterMap_unique {α β : Type} [DecidableEq α] {l : List α}
    (f : α → Option β) (p : β → Bool) (a : α)
    (hl : l.Nodup) (ha : a ∈ l) {b : β} (hfa : f a = some b) (hpb : p b = true)
    (hother : ∀ x, x ≠ a → ∀ y, f x = some y → p y = false) :
    (l.filterMap f).countP p = 1 := by
  induction l with
  | nil => cases ha
  | cons x xs ih =>
    rw [List.filterMap_cons]
    rcases List.mem_cons.mp ha with h | h
    · subst h
      rw [hfa]
      have hxs : (xs.filterMap f).countP p = 0 := by
        rw [List.countP_eq_zero]
        intro y hy
        rcases List.mem_filterMap.mp hy with ⟨x', hx', hfx'⟩
        have hx'ne : x' ≠ a := by
          intro e
          subst e
          exact (List.nodup_cons.mp hl).1 hx'
        simp [hother x' hx'ne y hfx']
      simp [List.countP_cons, hxs, hpb]
    · have hxne : x ≠ a := by
        intro e
        subst e
        exact (List.nodup_cons.mp hl).1 h
      have hrec := ih (List.nodup_cons.mp hl).2 h
      rcases hfx : f x with _ | y
      · simpa using hrec
      · rw [List.countP_cons]
        simp [hother x hxne y hfx, hrec]

/-- Claim C8: a node whose lower-cased path contains `service` (the Service
role) and whose readable content declares more than 7 extracted methods gets
exactly one Medium single-responsibility violation naming that node and
carrying the method count. -/
theorem srp_exactly_one_violation (fs : List (Str × Str)) (proj : Str) (g : Graph)
    (node content : Str)
    (hnd : g.nodes.Nodup) (hmem : node ∈ g.nodes)
    (hsvc : strContains (toLowerCL node) "service".data = true)
    (hlook : List.lookup (pathJoin proj node) fs = some content)
    (hlen : (extract_methods content).length > 7) :
    (⟨node, (extract_methods content).length, "medium".data⟩ : SrpViolation) ∈
      check_single_responsibility fs proj g ∧
    (check_single_responsibility fs proj g).countP (fun v => v.file == node) = 1 := by
  have hsome : srp_check fs proj node =
      some ⟨node, (extract_methods content).length, "medium".data⟩ := by
    simp [srp_check, hsvc, hlook, hlen]
  constructor
  · exact List.mem_filterMap.mpr ⟨node, hmem, hsome⟩
  · refine countP_filterMap_unique (srp_check fs proj) _ node hnd hmem hsome
      (by simp) ?_
    intro x hxne y hfy
    have hfile := srp_check_file hfy
    rw [hfile]
    exact beq_eq_false_iff_ne.mpr hxne

set_option maxRecDepth 100000 in
/-- Claim C8 witness: the nine-method service fixture yields exactly one
Medium violation with the correct node id. -/
theorem srp_exactly_one_violation_witness :
    (⟨"domain/UserService.js".data, 9, "medium".data⟩ : SrpViolation) ∈
      check_single_responsibility fs8 "/p".data (map_dependencies fs8 "/p".data) ∧
    (check_single_responsibility fs8 "/p".data
        (map_dependencies fs8 "/p".data)).countP
      (fun v => v.file == "domain/UserService.js".data) = 1 :=
  srp_exactly_one_violation fs8 "/p".data (map_dependencies fs8 "/p".data)
    "domain/UserService.js".data content9 (by decide) (by decide) (by decide)
    (by decide) (by decide)

set_option maxRecDepth 100000 in
/-- Claim C8 counterexample: the threshold is not configurable.  The
analyzer takes no configuration and hard-codes the literal 7: on the
nine-method service fixture it emits a violation even though the spec's
rule configured at threshold 10 emits none, so no configured threshold other
than 7 is implemented. -/
theorem srp_threshold_not_configurable :
    spec_srp_rule 10 fs8 "/p".data (map_dependencies fs8 "/p".data) = [] ∧
    check_single_responsibility fs8 "/p".data (map_dependencies fs8 "/p".data) =
      [⟨"domain/UserService.js".data, 9, "medium".data⟩] ∧
    spec_srp_rule 10 fs8 "/p".data (map_dependencies fs8 "/p".data) ≠
      check_single_responsibility fs8 "/p".data (map_dependencies fs8 "/p".data) :=
  ⟨by decide, by decide, by decide⟩

/-- Claim C9 counterexample: the spec's complexity formula counts `&&`, but
the code counts only space-suffixed `if/else/for/while/case/catch`; the two
disagree on `a && b`. -/
theorem complexity_formula_divergence :
    file_complexity "a && b".data = 1 ∧ spec_complexity_rule "a && b".data = 2 ∧
    file_complexity "a && b".data ≠ spec_complexity_rule "a && b".data :=
  ⟨by decide, by decide, by decide⟩

/-- Lists of naturals all at least 1 sum to at least their length. -/
theorem length_le_sum_of_one_le :
    ∀ l : List Nat, (∀ x ∈ l, 1 ≤ x) → l.length ≤ l.sum := by
  intro l
  induction l with
  | nil => simp
  | cons x xs ih =>
    intro h
    simp only [List.length_cons, List.sum_cons]
    have hx := h x (by simp)
    have hxs := ih (fun y hy => h y (by simp [hy]))
    omega

/-- Claim C9 (amended): per node the complexity is 1 plus the counts of the
six space-suffixed tokens `if `, `else `, `for `, `while `, `case `,
`catch `; the aggregate metric is their average over readable non-test `.js`
nodes (0 when none, and at least 1 otherwise); no maximum is computed (the
`Metrics` record has no such field). -/
theorem complexity_average_spec (fs : List (Str × Str)) (proj : Str) (g : Graph) :
    (∀ content : Str, file_complexity content =
      countOccur content "if ".data + countOccur content "else ".data +
        countOccur content "for ".data + countOccur content "while ".data +
        countOccur content "case ".data + countOccur content "catch ".data + 1) ∧
    (calculate_metrics fs proj g).cyclomatic_complexity =
      calculate_cyclomatic_complexity fs proj g ∧
    (complexity_values fs proj g = [] →
      calculate_cyclomatic_complexity fs proj g = 0) ∧
    (complexity_values fs proj g ≠ [] →
      1 ≤ calculate_cyclomatic_complexity fs proj g) := by
  refine ⟨fun _ => rfl, rfl, ?_, ?_⟩
  · intro h
    simp [calculate_cyclomatic_complexity, h]
  · intro h
    have hlen : 0 < (complexity_values fs proj g).length := List.length_pos.mpr h
    have hone : ∀ x ∈ complexity_values fs proj g, 1 ≤ x := by
      intro x hx
      rcases List.mem_filterMap.mp hx with ⟨n, _, hfn⟩
      simp only at hfn
      split at hfn
      · exact absurd hfn (by simp)
      · rcases Option.map_eq_some'.mp hfn with ⟨c, -, hc⟩
        rw [← hc]
        simp only [file_complexity]
        omega
    have hsum := length_le_sum_of_one_le _ hone
    unfold calculate_cyclomatic_complexity
    rw [if_pos hlen]
    have hlenQ : (0 : ℚ) < ((complexity_values fs proj g).length : ℚ) := by
      exact_mod_cast hlen
    rw [one_le_div hlenQ]
    exact_mod_cast hsum

/-- Claim C9 witness: the Scenario-B fixture counts two files and its average
complexity is at least 1. -/
theorem complexity_average_spec_witness :
    complexity_values fsB "/p".data (map_dependencies fsB "/p".data) ≠ [] ∧
    1 ≤ calculate_cyclomatic_complexity fsB "/p".data (map_dependencies fsB "/p".data) :=
  ⟨by decide,
   (complexity_average_spec fsB "/p".data (map_dependencies fsB "/p".data)).2.2.2
     (by decide)⟩

/-- No smell produced by `detect_file_smells` is `too_many_methods`: the
method list is truncated to 10 before the `> 10` comparison. -/
theorem detect_file_smells_no_tmm (c : Str) (s : Smell)
    (hs : s ∈ detect_file_smells c) : s.smell_type ≠ "too_many_methods".data := by
  have h10 : ¬((extract_methods c).length > 10) := by
    have : (extract_methods c).length ≤ 10 := by
      unfold extract_methods
      rw [List.length_take]
      exact min_le_left _ _
    omega
  simp only [detect_file_smells] at hs
  rw [if_neg h10, List.append_nil] at hs
  split at hs
  · rw [List.mem_singleton] at hs
    subst hs
    exact (by decide : "long_file".data ≠ "too_many_methods".data)
  · exact absurd hs (List.not_mem_nil s)

/-- Claim C10: `extract_methods` returns at most 10 names, so the
`too_many_methods` branch (which needs strictly more than 10) is unreachable
and no Report's violations list ever carries that smell. -/
theorem too_many_methods_unreachable (content : Str) (fs : List (Str × Str))
    (proj now : Str) (σ : List Str → List Str) (fsm : FileSmells) (s : Smell) :
    (extract_methods content).length ≤ 10 ∧
    (fsm ∈ (run_analysis fs proj now σ).violations → s ∈ fsm.smells →
      s.smell_type ≠ "too_many_methods".data) := by
  constructor
  · unfold extract_methods
    rw [List.length_take]
    exact min_le_left _ _
  · intro hf hs
    have hf' : fsm ∈ detect_code_smells fs proj (map_dependencies fs proj) := hf
    rcases List.mem_filterMap.mp hf' with ⟨n, -, hfn⟩
    simp only at hfn
    split at hfn
    · exact absurd hfn (by simp)
    · split at hfn
      · exact absurd hfn (by simp)
      · rename_i content' heq
        split at hfn
        · injection hfn with hfn
          rw [← hfn] at hs
          exact detect_file_smells_no_tmm content' s hs
        · exact absurd hfn (by simp)

set_option maxRecDepth 1000000 in
/-- Claim C10 witness: the 201-line fixture produces only a `long_file`
smell, and the method bound holds on it. -/
theorem too_many_methods_unreachable_witness :
    (extract_methods content201).length ≤ 10 ∧
    (⟨"long_file".data, "medium".data, 201⟩ : Smell).smell_type ≠
      "too_many_methods".data :=
  ⟨(too_many_methods_unreachable content201 fs10 "/p".data "t".data idSetOrder
      ⟨"a.js".data, [⟨"long_file".data, "medium".data, 201⟩]⟩
      ⟨"long_file".data, "medium".data, 201⟩).1,
   (too_many_methods_unreachable content201 fs10 "/p".data "t".data idSetOrder
      ⟨"a.js".data, [⟨"long_file".data, "medium".data, 201⟩]⟩
      ⟨"long_file".data, "medium".data, 201⟩).2 (by decide) (by decide)⟩
